import Mathlib

/-!
Shallow embedding of the scheduling core of the `images-changer` application
(file `src/pages/index.vue`, script section), together with theorems checking
the natural-language specification against it.

Conventions of the embedding:
* A nullable TypeScript string field (`string | null`) becomes `Option String`;
  JavaScript truthiness of such a value (`Boolean(x)` / `!x`) is `jsTruthy`:
  `null` and the empty string are falsy, every other string is truthy.
* A nullable number-array field (`number[] | null`) becomes `Option (List Int)`;
  as a JavaScript object, an array is truthy precisely when it is non-null
  (the empty array `[]` is still truthy).
* `parseInt` is modelled on decimal numeral strings (the only strings the UI
  produces for the hour/minute fields) by `String.toInt?` with default `0`.
* A JavaScript `Date` is modelled by the `Instant` structure carrying the
  results of `getDay` (0 = Sunday .. 6 = Saturday), `getHours`, `getMinutes`
  and `getSeconds`; the functions reading the global clock take an `Instant`
  argument instead.
* `Array.prototype.sort` with a consistent comparator is, by the ECMAScript
  specification, a stable sort; it is modelled by `List.insertionSort` (which
  is stable in the same sense) on the order `mediaLE a b ↔ mediaCmp a b ≤ 0`
  induced by the source comparator.
* `localStorage` and `JSON` serialization: the single storage slot
  (`localStorage.getItem/setItem` under the key `imagesData`) is modelled as
  an `Option StoredData`, where `StoredData.wellFormed l` stands for the JSON
  string produced by `JSON.stringify l` (round-tripping is the identity on
  this data type) and `StoredData.malformed` stands for any stored string on
  which `JSON.parse`, or the subsequent array processing, throws.
-/

/-- JavaScript truthiness of a nullable string: `null` and `""` are falsy. -/
def jsTruthy : Option String → Bool
  | none => false
  | some s => !s.data.isEmpty

/-- Decimal value accumulated over a character list: `none` on any non-digit. -/
def parseDigits (cs : List Char) (acc : Nat) : Option Nat :=
  match cs with
  | [] => some acc
  | c :: rest => if c.isDigit then parseDigits rest (acc * 10 + (c.toNat - 48)) else none

/-- JavaScript `parseInt` restricted to decimal numeral strings (the hour and
minute labels `"0"`..`"59"` produced by the UI are the only inputs that occur). -/
def parseIntJS (s : String) : Int :=
  ((parseDigits s.data 0).getD 0 : Nat)

/-- The `MediaType` record of the source: one schedulable item. -/
structure MediaType where
  path : Option String
  hoursStart : Option String
  minutesStart : Option String
  hoursEnd : Option String
  minutesEnd : Option String
  weekDays : Option (List Int)
deriving DecidableEq, Repr

/-- A JavaScript `Date` observed through the four accessors the source uses.
`getDay` is the platform's native weekday: 0 = Sunday, 1 = Monday, ..., 6 = Saturday. -/
structure Instant where
  getDay : Nat
  getHours : Nat
  getMinutes : Nat
  getSeconds : Nat
deriving DecidableEq, Repr

/-- `getCurrentWeekDay` of the source: the current weekday 1-7, with the native
Sunday value 0 remapped to 7. -/
def getCurrentWeekDay (now : Instant) : Int :=
  if now.getDay = 0 then 7 else (now.getDay : Int)

/-- `getCurrentTimeInSeconds` of the source: seconds elapsed since local midnight. -/
def getCurrentTimeInSeconds (now : Instant) : Int :=
  (now.getHours : Int) * 3600 + (now.getMinutes : Int) * 60 + (now.getSeconds : Int)

/-- `timeToSeconds` of the source: `0` when either label is absent (falsy),
otherwise `hours*3600 + minutes*60`, plus `59` extra seconds when `isEndTime`. -/
def timeToSeconds (hours minutes : Option String) (isEndTime : Bool) : Int :=
  if !jsTruthy hours || !jsTruthy minutes then 0
  else
    let totalSeconds := parseIntJS (hours.getD "") * 3600 + parseIntJS (minutes.getD "") * 60
    if isEndTime then totalSeconds + 59 else totalSeconds

/-- `isMediaActive` of the source, with the global clock passed as `now`. -/
def isMediaActive (now : Instant) (media : MediaType) : Bool :=
  if media.weekDays.isNone || !jsTruthy media.hoursStart || !jsTruthy media.minutesStart
      || !jsTruthy media.hoursEnd || !jsTruthy media.minutesEnd then
    false
  else
    let currentDay := getCurrentWeekDay now
    let currentTime := getCurrentTimeInSeconds now
    let startTime := timeToSeconds media.hoursStart media.minutesStart false
    let endTime := timeToSeconds media.hoursEnd media.minutesEnd true
    let isDayMatch := (media.weekDays.getD []).contains currentDay
    let isTimeMatch := decide (startTime ≤ currentTime) && decide (currentTime ≤ endTime)
    isDayMatch && isTimeMatch

/-- `updateCurrentMedia` of the source: `mediaList.find(media => isMediaActive(media))`,
returning the value assigned to `currentMedia` (`null` becomes `none`). -/
def updateCurrentMedia (mediaList : List MediaType) (now : Instant) : Option MediaType :=
  mediaList.find? (fun media => isMediaActive now media)

/-- `validateTimeInterval` of the source, with the editing buffer passed explicitly. -/
def validateTimeInterval (editingMedia : MediaType) : Bool :=
  if !jsTruthy editingMedia.hoursStart || !jsTruthy editingMedia.minutesStart
      || !jsTruthy editingMedia.hoursEnd || !jsTruthy editingMedia.minutesEnd then
    false
  else
    let startTime := timeToSeconds editingMedia.hoursStart editingMedia.minutesStart false
    let endTime := timeToSeconds editingMedia.hoursEnd editingMedia.minutesEnd false
    decide (startTime ≤ endTime)

/-- `hasDuplicateMedia` of the source, with the list, the editing buffer and the
editing index passed explicitly.  `mediaList.some((media, index) => ...)`. -/
def hasDuplicateMedia (mediaList : List MediaType) (editingMedia : MediaType)
    (editingIndex : Option Nat) : Bool :=
  mediaList.enum.any fun p =>
    if editingIndex = some p.1 then false
    else p.2.path == editingMedia.path && p.2.hoursStart == editingMedia.hoursStart
      && p.2.minutesStart == editingMedia.minutesStart

/-- The first sort key of the source comparator:
`a.weekDays && a.weekDays.length > 0 ? Math.min(...a.weekDays) : 8`. -/
def minDayKey (media : MediaType) : Int :=
  match media.weekDays with
  | none => 8
  | some [] => 8
  | some (d :: ds) => ds.foldl min d

/-- The second sort key of the source comparator: `timeToSeconds(a.hoursStart, a.minutesStart)`. -/
def startKey (media : MediaType) : Int :=
  timeToSeconds media.hoursStart media.minutesStart false

/-- The numeric comparator passed to `sort` in `sortMediaList`. -/
def mediaCmp (a b : MediaType) : Int :=
  if minDayKey a ≠ minDayKey b then minDayKey a - minDayKey b
  else startKey a - startKey b

/-- The ordering induced by the comparator: `a` may come no later than `b`. -/
def mediaLE (a b : MediaType) : Prop :=
  mediaCmp a b ≤ 0

instance : DecidableRel mediaLE := fun a b => by
  unfold mediaLE; infer_instance

/-- `sortMediaList` of the source: `[...mediaArray].sort(comparator)`.  The
ECMAScript `sort` is stable and the comparator is consistent, so the call is
modelled by the stable `List.insertionSort` on `mediaLE`. -/
def sortMediaList (mediaArray : List MediaType) : List MediaType :=
  mediaArray.insertionSort mediaLE

/-- The combined sort key (first weekday key, then start-time key). -/
def mediaKey (media : MediaType) : Int × Int :=
  (minDayKey media, startKey media)

/-- Contents of the `imagesData` storage slot: either a well-formed JSON
serialization of a media list, or a string that makes loading throw. -/
inductive StoredData where
  | malformed : StoredData
  | wellFormed : List MediaType → StoredData
deriving DecidableEq, Repr

/-- The reactive state of the component that the modelled operations touch. -/
structure AppState where
  mediaList : List MediaType
  storage : Option StoredData
  currentMedia : Option MediaType
  editingMedia : MediaType
  editingIndex : Option Nat
  addDialog : Bool
deriving DecidableEq, Repr

/-- The all-`null` editing buffer installed by `resetEditingMedia`. -/
def emptyEditingMedia : MediaType :=
  ⟨none, none, none, none, none, none⟩

/-- The completeness guard at the top of `addMedia`: `Boolean` of each of the six
fields.  For the five string fields this is string truthiness; for `weekDays`
an array is truthy exactly when it is non-null (an empty array passes). -/
def isCompleteEditing (media : MediaType) : Bool :=
  jsTruthy media.path && jsTruthy media.hoursStart && jsTruthy media.minutesStart
    && jsTruthy media.hoursEnd && jsTruthy media.minutesEnd && media.weekDays.isSome

/-- `addMedia` of the source: validates the editing buffer, then commits it
(overwrite at `editingIndex` or append), re-sorts, persists the whole list,
recomputes the current media and closes the dialog.  Returns the source's
boolean result together with the new state. -/
def addMedia (s : AppState) (now : Instant) : Bool × AppState :=
  if !isCompleteEditing s.editingMedia then (false, s)
  else if !validateTimeInterval s.editingMedia then (false, s)
  else if hasDuplicateMedia s.mediaList s.editingMedia s.editingIndex then (false, s)
  else
    let mutated := match s.editingIndex with
      | some i => s.mediaList.set i s.editingMedia
      | none => s.mediaList ++ [s.editingMedia]
    let sorted := sortMediaList mutated
    (true,
      { s with
        mediaList := sorted
        storage := some (StoredData.wellFormed sorted)
        currentMedia := updateCurrentMedia sorted now
        editingMedia := emptyEditingMedia
        editingIndex := none
        addDialog := false })

/-- `deleteMedia` of the source: when the confirmation dialog is accepted,
splice out the entry at `index`, re-sort, persist and recompute the current
media; otherwise do nothing. -/
def deleteMedia (s : AppState) (index : Nat) (confirmed : Bool) (now : Instant) : AppState :=
  if confirmed then
    let sorted := sortMediaList (s.mediaList.eraseIdx index)
    { s with
      mediaList := sorted
      storage := some (StoredData.wellFormed sorted)
      currentMedia := updateCurrentMedia sorted now }
  else s

/-- `loadMediaList` of the source: read the storage slot; when a value is
present, parse it and install the sorted result, falling back to the empty
list when parsing throws; when the slot is empty, leave the state unchanged. -/
def loadMediaList (s : AppState) : AppState :=
  match s.storage with
  | none => s
  | some StoredData.malformed => { s with mediaList := [] }
  | some (StoredData.wellFormed loadedMedia) => { s with mediaList := sortMediaList loadedMedia }

/-! ### Helper lemmas about the comparator and the sort -/

/-- The comparator order is the lexicographic order on (weekday key, start key). -/
theorem mediaLE_iff (a b : MediaType) :
    mediaLE a b ↔
      (minDayKey a < minDayKey b ∨ (minDayKey a = minDayKey b ∧ startKey a ≤ startKey b)) := by
  unfold mediaLE mediaCmp
  by_cases h : minDayKey a = minDayKey b <;> simp [h]
  all_goals omega

instance : IsTotal MediaType mediaLE :=
  ⟨fun a b => by rw [mediaLE_iff a b, mediaLE_iff b a]; omega⟩

instance : IsTrans MediaType mediaLE :=
  ⟨fun a b c hab hbc => by
    rw [mediaLE_iff] at hab hbc ⊢
    omega⟩

/-- Entries with the same combined sort key are related by the comparator order. -/
theorem mediaLE_of_key_eq {a b : MediaType} (h : mediaKey a = mediaKey b) : mediaLE a b := by
  rw [mediaLE_iff]
  rw [mediaKey, mediaKey, Prod.mk.injEq] at h
  exact Or.inr ⟨h.1, le_of_eq h.2⟩

/-- Inserting an entry never disturbs the subsequence of entries with any fixed key:
the inserted entry lands in front of the equal-key entries already present
(they all come from later positions of the original list). -/
theorem filter_key_orderedInsert (k : Int × Int) (a : MediaType) (l : List MediaType) :
    (List.orderedInsert mediaLE a l).filter (fun m => decide (mediaKey m = k)) =
      if mediaKey a = k then a :: l.filter (fun m => decide (mediaKey m = k))
      else l.filter (fun m => decide (mediaKey m = k)) := by
  induction l with
  | nil =>
    by_cases hk : mediaKey a = k <;> simp [List.orderedInsert, List.filter, hk]
  | cons b bs ih =>
    simp only [List.orderedInsert]
    by_cases hab : mediaLE a b
    · rw [if_pos hab]
      by_cases hk : mediaKey a = k <;> simp [List.filter_cons, hk]
    · rw [if_neg hab, List.filter_cons, ih]
      by_cases hk : mediaKey a = k
      · have hbk : ¬ mediaKey b = k := fun hbk => hab (mediaLE_of_key_eq (hk.trans hbk.symm))
        simp [hk, hbk, List.filter_cons]
      · simp [hk, List.filter_cons]

/-- Stability of `sortMediaList`: for every key, the subsequence of entries
carrying that key is exactly the one of the input list, in the same order. -/
theorem filter_key_sortMediaList (k : Int × Int) (l : List MediaType) :
    (sortMediaList l).filter (fun m => decide (mediaKey m = k)) =
      l.filter (fun m => decide (mediaKey m = k)) := by
  unfold sortMediaList
  induction l with
  | nil => rfl
  | cons b bs ih =>
    simp only [List.insertionSort]
    rw [filter_key_orderedInsert, List.filter_cons]
    by_cases hk : mediaKey b = k <;> simp [hk, ih]

/-- The output of `sortMediaList` is sorted for the comparator order. -/
theorem sortMediaList_sorted (l : List MediaType) : (sortMediaList l).Sorted mediaLE :=
  List.sorted_insertionSort mediaLE l

/-- Sorting an already sorted list changes nothing. -/
theorem sortMediaList_idem (l : List MediaType) :
    sortMediaList (sortMediaList l) = sortMediaList l :=
  List.Sorted.insertionSort_eq (List.sorted_insertionSort mediaLE l)

/-- End-time conversion is start-time conversion plus the 59-second pad,
whenever both labels are present. -/
theorem timeToSeconds_end_eq (h m : Option String)
    (hh : jsTruthy h = true) (hm : jsTruthy m = true) :
    timeToSeconds h m true = timeToSeconds h m false + 59 := by
  unfold timeToSeconds
  simp [hh, hm]

/-! ### Claims -/

/-- C1: `updateCurrentMedia` yields the first entry of the list (in its current
order) for which `isMediaActive` holds, and `none` when no entry matches; at
Monday 09:40 on the two-entry example store it returns the 9:00-10:00 entry,
not the narrower overlapping 9:30-9:45 one. -/
theorem updateCurrentMedia_first (l : List MediaType) (now : Instant) :
    (updateCurrentMedia l now = none ↔ ∀ m ∈ l, isMediaActive now m = false) ∧
    (∀ m, updateCurrentMedia l now = some m →
      isMediaActive now m = true ∧
      ∃ before after, l = before ++ m :: after ∧ ∀ b ∈ before, isMediaActive now b = false) ∧
    updateCurrentMedia
      [⟨some "wide", some "9", some "0", some "10", some "0", some [1]⟩,
       ⟨some "narrow", some "9", some "30", some "9", some "45", some [1]⟩]
      ⟨1, 9, 40, 0⟩ =
      some ⟨some "wide", some "9", some "0", some "10", some "0", some [1]⟩ := by
  refine ⟨?_, ?_, by decide⟩
  · unfold updateCurrentMedia
    rw [List.find?_eq_none]
    simp
  · intro m h
    unfold updateCurrentMedia at h
    rw [List.find?_eq_some] at h
    obtain ⟨hp, before, after, heq, hall⟩ := h
    refine ⟨hp, before, after, heq, fun b hb => ?_⟩
    simpa using hall b hb

theorem updateCurrentMedia_first_witness :
    isMediaActive ⟨1, 9, 40, 0⟩ ⟨some "wide", some "9", some "0", some "10", some "0", some [1]⟩
        = true ∧
    ∃ before after,
      [(⟨some "wide", some "9", some "0", some "10", some "0", some [1]⟩ : MediaType),
       ⟨some "narrow", some "9", some "30", some "9", some "45", some [1]⟩] =
        before ++ ⟨some "wide", some "9", some "0", some "10", some "0", some [1]⟩ :: after ∧
      ∀ b ∈ before, isMediaActive ⟨1, 9, 40, 0⟩ b = false :=
  (updateCurrentMedia_first
      [⟨some "wide", some "9", some "0", some "10", some "0", some [1]⟩,
       ⟨some "narrow", some "9", some "30", some "9", some "45", some [1]⟩]
      ⟨1, 9, 40, 0⟩).2.1
    ⟨some "wide", some "9", some "0", some "10", some "0", some [1]⟩ (by decide)

/-- Activity predicate written from the words of claim C2 (for comparison with
the source function `isMediaActive`): it additionally demands that the sixth
field, `path`, be present. -/
def isActiveSpecSixFields (now : Instant) (m : MediaType) : Prop :=
  m.path.isSome = true ∧ jsTruthy m.hoursStart = true ∧ jsTruthy m.minutesStart = true ∧
    jsTruthy m.hoursEnd = true ∧ jsTruthy m.minutesEnd = true ∧ m.weekDays.isSome = true ∧
    getCurrentWeekDay now ∈ m.weekDays.getD [] ∧
    timeToSeconds m.hoursStart m.minutesStart false ≤ getCurrentTimeInSeconds now ∧
    getCurrentTimeInSeconds now ≤ timeToSeconds m.hoursEnd m.minutesEnd false + 59

instance (now : Instant) (m : MediaType) : Decidable (isActiveSpecSixFields now m) := by
  unfold isActiveSpecSixFields
  infer_instance

/-- C2 (counterexample): `isMediaActive` never consults `path`, so an entry with
a null `path` but matching day and time is active, refuting the "all six fields
present" reading of the claim at this concrete input. -/
theorem isMediaActive_ignores_path :
    ¬ (isMediaActive ⟨1, 9, 30, 0⟩ ⟨none, some "9", some "0", some "10", some "0", some [1]⟩
          = true ↔
        isActiveSpecSixFields ⟨1, 9, 30, 0⟩
          ⟨none, some "9", some "0", some "10", some "0", some [1]⟩) := by
  decide

/-- C2 (amended): `isMediaActive` holds at an instant if and only if the five
fields it consults (`weekDays` and the four time labels; `path` is not
consulted) are present, the instant's weekday (native Sunday 0 remapped to 7)
is a member of `weekDays`, and the instant's seconds-since-midnight lies in
`[startSeconds, endSeconds+59]`; consequently 23:59:59 matches an end label of
23:59 but not one of 23:58. -/
theorem isMediaActive_iff (now : Instant) (m : MediaType) :
    (isMediaActive now m = true ↔
      (m.weekDays.isSome = true ∧ jsTruthy m.hoursStart = true ∧
        jsTruthy m.minutesStart = true ∧ jsTruthy m.hoursEnd = true ∧
        jsTruthy m.minutesEnd = true ∧
        getCurrentWeekDay now ∈ m.weekDays.getD [] ∧
        timeToSeconds m.hoursStart m.minutesStart false ≤ getCurrentTimeInSeconds now ∧
        getCurrentTimeInSeconds now ≤ timeToSeconds m.hoursEnd m.minutesEnd false + 59)) ∧
    isMediaActive ⟨6, 23, 59, 59⟩ ⟨some "p", some "23", some "0", some "23", some "59", some [6]⟩
      = true ∧
    isMediaActive ⟨6, 23, 59, 59⟩ ⟨some "p", some "23", some "0", some "23", some "58", some [6]⟩
      = false := by
  refine ⟨?_, by decide, by decide⟩
  obtain ⟨p, hs, ms, he, me, wdo⟩ := m
  unfold isMediaActive
  rcases wdo with _ | wd
  · simp
  · by_cases h1 : jsTruthy hs <;> by_cases h2 : jsTruthy ms <;>
      by_cases h3 : jsTruthy he <;> by_cases h4 : jsTruthy me <;>
      simp_all [timeToSeconds_end_eq he me, and_assoc]

/-- C3: for every valid hour label (0-23) and minute label (0-59),
`timeToSeconds` is `h*3600 + m*60`, with 59 extra seconds when the end flag is
set; when either argument is absent (falsy: null or empty), it is `0`
regardless of the flag. -/
theorem timeToSeconds_spec :
    (∀ h < 24, ∀ m < 60,
      timeToSeconds (some (Nat.repr h)) (some (Nat.repr m)) false
          = ((h * 3600 + m * 60 : Nat) : Int) ∧
      timeToSeconds (some (Nat.repr h)) (some (Nat.repr m)) true
          = ((h * 3600 + m * 60 + 59 : Nat) : Int)) ∧
    (∀ (x y : Option String) (b : Bool),
      jsTruthy x = false ∨ jsTruthy y = false → timeToSeconds x y b = 0) := by
  constructor
  · decide
  · intro x y b h
    unfold timeToSeconds
    rcases h with h | h <;> simp [h]

theorem timeToSeconds_spec_witness :
    timeToSeconds (some (Nat.repr 9)) (some (Nat.repr 30)) false
        = ((9 * 3600 + 30 * 60 : Nat) : Int) ∧
    timeToSeconds (some (Nat.repr 23)) (some (Nat.repr 59)) true
        = ((23 * 3600 + 59 * 60 + 59 : Nat) : Int) ∧
    timeToSeconds none (some "30") true = 0 :=
  ⟨(timeToSeconds_spec.1 9 (by decide) 30 (by decide)).1,
   (timeToSeconds_spec.1 23 (by decide) 59 (by decide)).2,
   timeToSeconds_spec.2 none (some "30") true (Or.inl (by decide))⟩

/-- C4: `validateTimeInterval` is true exactly when the four time labels are
present and the start time does not exceed the end time, both measured without
the 59-second end pad; a 10:00-10:00 interval is accepted, a 10:05-10:00 one
is rejected. -/
theorem validateTimeInterval_iff (m : MediaType) :
    (validateTimeInterval m = true ↔
      (jsTruthy m.hoursStart = true ∧ jsTruthy m.minutesStart = true ∧
        jsTruthy m.hoursEnd = true ∧ jsTruthy m.minutesEnd = true ∧
        timeToSeconds m.hoursStart m.minutesStart false
          ≤ timeToSeconds m.hoursEnd m.minutesEnd false)) ∧
    validateTimeInterval ⟨some "p", some "10", some "0", some "10", some "0", some [1]⟩ = true ∧
    validateTimeInterval ⟨some "p", some "10", some "5", some "10", some "0", some [1]⟩ = false := by
  refine ⟨?_, by decide, by decide⟩
  obtain ⟨p, hs, ms, he, me, wdo⟩ := m
  unfold validateTimeInterval
  by_cases h1 : jsTruthy hs <;> by_cases h2 : jsTruthy ms <;>
    by_cases h3 : jsTruthy he <;> by_cases h4 : jsTruthy me <;>
    simp_all

/-- C5: `hasDuplicateMedia` is true exactly when some entry of the store, at an
index different from the editing index when one is set, agrees with the
candidate on `path`, `hoursStart` and `minutesStart`; `weekDays` and the end
time are not consulted, so two entries sharing path and start time but with
different weekday sets are still flagged. -/
theorem hasDuplicateMedia_iff (l : List MediaType) (e : MediaType) (idx : Option Nat) :
    (hasDuplicateMedia l e idx = true ↔
      ∃ i m, l[i]? = some m ∧ idx ≠ some i ∧
        m.path = e.path ∧ m.hoursStart = e.hoursStart ∧ m.minutesStart = e.minutesStart) ∧
    hasDuplicateMedia [⟨some "p", some "9", some "0", some "10", some "0", some [1]⟩]
      ⟨some "p", some "9", some "0", some "11", some "30", some [2, 3]⟩ none = true := by
  refine ⟨?_, by decide⟩
  unfold hasDuplicateMedia
  rw [List.any_eq_true]
  constructor
  · rintro ⟨⟨i, m⟩, hmem, hp⟩
    rw [List.mem_enum_iff_getElem?] at hmem
    by_cases hidx : idx = some i
    · simp [hidx] at hp
    · simp only [hidx, if_false, Bool.and_eq_true, beq_iff_eq] at hp
      exact ⟨i, m, hmem, hidx, hp.1.1, hp.1.2, hp.2⟩
  · rintro ⟨i, m, hget, hidx, h1, h2, h3⟩
    refine ⟨(i, m), List.mem_enum_iff_getElem?.2 hget, ?_⟩
    simp [hidx, h1, h2, h3]

theorem hasDuplicateMedia_iff_witness :
    hasDuplicateMedia [⟨some "p", some "9", some "0", some "10", some "0", some [1]⟩]
      ⟨some "p", some "9", some "0", some "11", some "30", some [2, 3]⟩ none = true :=
  (hasDuplicateMedia_iff [⟨some "p", some "9", some "0", some "10", some "0", some [1]⟩]
      ⟨some "p", some "9", some "0", some "11", some "30", some [2, 3]⟩ none).1.2
    ⟨0, ⟨some "p", some "9", some "0", some "10", some "0", some [1]⟩,
      by decide, by decide, by decide, by decide, by decide⟩

/-- C6: `sortMediaList` returns a sequence ordered by ascending minimum weekday
(null or empty `weekDays` getting the sentinel key 8, larger than any valid
day) and then by ascending unpadded start time; it is a permutation of the
input, and entries with equal sort keys keep their original relative order. -/
theorem sortMediaList_spec (l : List MediaType) :
    List.Pairwise
      (fun a b => minDayKey a < minDayKey b ∨
        (minDayKey a = minDayKey b ∧ startKey a ≤ startKey b))
      (sortMediaList l) ∧
    (sortMediaList l).Perm l ∧
    (∀ k : Int × Int,
      (sortMediaList l).filter (fun m => decide (mediaKey m = k))
        = l.filter (fun m => decide (mediaKey m = k))) ∧
    (∀ p hs ms he me,
      minDayKey ⟨p, hs, ms, he, me, none⟩ = 8 ∧ minDayKey ⟨p, hs, ms, he, me, some []⟩ = 8) :=
  ⟨(sortMediaList_sorted l).imp fun {a b} h => (mediaLE_iff a b).1 h,
   List.perm_insertionSort mediaLE l,
   fun k => filter_key_sortMediaList k l,
   fun _ _ _ _ _ => ⟨rfl, rfl⟩⟩

/-- C7: `sortMediaList` is idempotent. -/
theorem sortMediaList_idempotent (l : List MediaType) :
    sortMediaList (sortMediaList l) = sortMediaList l :=
  sortMediaList_idem l

/-- C8 (counterexample): `loadMediaList` sorts the loaded list in memory but
writes nothing back, so on a state whose storage slot holds an unsorted list
the in-memory list is sorted afterwards while the persisted value is not the
serialization of that re-sorted collection. -/
theorem loadMediaList_does_not_persist :
    ((loadMediaList
        ⟨[], some (StoredData.wellFormed
            [⟨some "b", some "9", some "0", some "10", some "0", some [2]⟩,
             ⟨some "a", some "9", some "0", some "10", some "0", some [1]⟩]),
          none, emptyEditingMedia, none, false⟩).mediaList =
      sortMediaList (loadMediaList
        ⟨[], some (StoredData.wellFormed
            [⟨some "b", some "9", some "0", some "10", some "0", some [2]⟩,
             ⟨some "a", some "9", some "0", some "10", some "0", some [1]⟩]),
          none, emptyEditingMedia, none, false⟩).mediaList) ∧
    (loadMediaList
        ⟨[], some (StoredData.wellFormed
            [⟨some "b", some "9", some "0", some "10", some "0", some [2]⟩,
             ⟨some "a", some "9", some "0", some "10", some "0", some [1]⟩]),
          none, emptyEditingMedia, none, false⟩).storage ≠
      some (StoredData.wellFormed (loadMediaList
        ⟨[], some (StoredData.wellFormed
            [⟨some "b", some "9", some "0", some "10", some "0", some [2]⟩,
             ⟨some "a", some "9", some "0", some "10", some "0", some [1]⟩]),
          none, emptyEditingMedia, none, false⟩).mediaList) := by
  decide

/-- C8 (amended): after a committing `addMedia` and after a confirmed
`deleteMedia`, the in-memory media list is a fixpoint of `sortMediaList` and
the storage slot holds the serialization of exactly that re-sorted collection;
after `loadMediaList` on a state whose storage slot is present, the in-memory
list is a fixpoint of `sortMediaList` (but `loadMediaList` writes nothing). -/
theorem write_ops_sort_and_persist (s : AppState) (now : Instant) :
    ((addMedia s now).1 = true →
      (addMedia s now).2.mediaList = sortMediaList (addMedia s now).2.mediaList ∧
      (addMedia s now).2.storage
        = some (StoredData.wellFormed (addMedia s now).2.mediaList)) ∧
    (∀ i, (deleteMedia s i true now).mediaList
        = sortMediaList (deleteMedia s i true now).mediaList ∧
      (deleteMedia s i true now).storage
        = some (StoredData.wellFormed (deleteMedia s i true now).mediaList)) ∧
    (s.storage.isSome = true →
      (loadMediaList s).mediaList = sortMediaList (loadMediaList s).mediaList) := by
  refine ⟨?_, ?_, ?_⟩
  · intro h
    unfold addMedia at h ⊢
    by_cases hc : isCompleteEditing s.editingMedia
    · by_cases hv : validateTimeInterval s.editingMedia
      · by_cases hd : hasDuplicateMedia s.mediaList s.editingMedia s.editingIndex
        · simp [hc, hv, hd] at h
        · simp only [hc, hv, hd, Bool.not_true, Bool.not_false, Bool.false_eq_true,
            if_false, if_true]
          exact ⟨(sortMediaList_idem _).symm, trivial⟩
      · simp [hc, hv] at h
    · simp [hc] at h
  · intro i
    unfold deleteMedia
    simp only [if_true]
    exact ⟨(sortMediaList_idem _).symm, trivial⟩
  · intro h
    unfold loadMediaList
    rcases hs : s.storage with _ | d
    · rw [hs] at h
      simp at h
    · rcases d with _ | loaded
      · rfl
      · exact (sortMediaList_idem loaded).symm

theorem write_ops_sort_and_persist_witness :
    ((addMedia
        ⟨[], some (StoredData.wellFormed []), none,
          ⟨some "p", some "9", some "0", some "10", some "0", some [1]⟩, none, true⟩
        ⟨1, 9, 30, 0⟩).2.mediaList =
      sortMediaList (addMedia
        ⟨[], some (StoredData.wellFormed []), none,
          ⟨some "p", some "9", some "0", some "10", some "0", some [1]⟩, none, true⟩
        ⟨1, 9, 30, 0⟩).2.mediaList ∧
     (addMedia
        ⟨[], some (StoredData.wellFormed []), none,
          ⟨some "p", some "9", some "0", some "10", some "0", some [1]⟩, none, true⟩
        ⟨1, 9, 30, 0⟩).2.storage =
      some (StoredData.wellFormed (addMedia
        ⟨[], some (StoredData.wellFormed []), none,
          ⟨some "p", some "9", some "0", some "10", some "0", some [1]⟩, none, true⟩
        ⟨1, 9, 30, 0⟩).2.mediaList)) ∧
    ((deleteMedia
        ⟨[], some (StoredData.wellFormed []), none,
          ⟨some "p", some "9", some "0", some "10", some "0", some [1]⟩, none, true⟩
        0 true ⟨1, 9, 30, 0⟩).mediaList =
      sortMediaList (deleteMedia
        ⟨[], some (StoredData.wellFormed []), none,
          ⟨some "p", some "9", some "0", some "10", some "0", some [1]⟩, none, true⟩
        0 true ⟨1, 9, 30, 0⟩).mediaList) ∧
    ((loadMediaList
        ⟨[], some (StoredData.wellFormed []), none,
          ⟨some "p", some "9", some "0", some "10", some "0", some [1]⟩, none, true⟩).mediaList =
      sortMediaList (loadMediaList
        ⟨[], some (StoredData.wellFormed []), none,
          ⟨some "p", some "9", some "0", some "10", some "0", some [1]⟩, none,
          true⟩).mediaList) := by
  have h := write_ops_sort_and_persist
    ⟨[], some (StoredData.wellFormed []), none,
      ⟨some "p", some "9", some "0", some "10", some "0", some [1]⟩, none, true⟩
    ⟨1, 9, 30, 0⟩
  exact ⟨h.1 (by decide), (h.2.1 0).1, h.2.2 (by decide)⟩

/-- C9: when validation of the candidate fails in `addMedia` — a missing
field, a start time strictly greater than the end time, or a duplicate by
(path, hoursStart, minutesStart) — `addMedia` returns false and leaves both
the in-memory media list and the persisted collection unchanged. -/
theorem addMedia_rejects_invalid (s : AppState) (now : Instant)
    (h : isCompleteEditing s.editingMedia = false ∨
      validateTimeInterval s.editingMedia = false ∨
      hasDuplicateMedia s.mediaList s.editingMedia s.editingIndex = true) :
    (addMedia s now).1 = false ∧
    (addMedia s now).2.mediaList = s.mediaList ∧
    (addMedia s now).2.storage = s.storage := by
  unfold addMedia
  by_cases hc : isCompleteEditing s.editingMedia
  · by_cases hv : validateTimeInterval s.editingMedia
    · by_cases hd : hasDuplicateMedia s.mediaList s.editingMedia s.editingIndex
      · simp [hc, hv, hd]
      · rcases h with h | h | h
        · rw [hc] at h; exact absurd h (by simp)
        · rw [hv] at h; exact absurd h (by simp)
        · exact absurd h hd
    · simp [hc, hv]
  · simp [hc]

theorem addMedia_rejects_invalid_witness :
    (addMedia ⟨[], some (StoredData.wellFormed []), none, emptyEditingMedia, none, true⟩
        ⟨1, 9, 0, 0⟩).1 = false ∧
    (addMedia ⟨[], some (StoredData.wellFormed []), none, emptyEditingMedia, none, true⟩
        ⟨1, 9, 0, 0⟩).2.mediaList = [] ∧
    (addMedia ⟨[], some (StoredData.wellFormed []), none, emptyEditingMedia, none, true⟩
        ⟨1, 9, 0, 0⟩).2.storage = some (StoredData.wellFormed []) :=
  addMedia_rejects_invalid
    ⟨[], some (StoredData.wellFormed []), none, emptyEditingMedia, none, true⟩
    ⟨1, 9, 0, 0⟩ (Or.inl (by decide))

/-- C10: a candidate whose `weekDays` is the empty list (non-null, no days)
passes the completeness guard of `addMedia` and is committed and persisted,
yet `isMediaActive` is false for any entry with empty `weekDays` at every
instant, so `updateCurrentMedia` never selects such an entry. -/
theorem emptyWeekDays_commit_never_active (now : Instant) (l : List MediaType)
    (m : MediaType) (hm : m.weekDays = some []) :
    isMediaActive now m = false ∧
    updateCurrentMedia l now ≠ some m ∧
    isCompleteEditing ⟨some "p", some "9", some "0", some "10", some "0", some []⟩ = true ∧
    (addMedia
        ⟨[], some (StoredData.wellFormed []), none,
          ⟨some "p", some "9", some "0", some "10", some "0", some []⟩, none, true⟩ now).1
      = true ∧
    (⟨some "p", some "9", some "0", some "10", some "0", some []⟩ : MediaType) ∈
      (addMedia
        ⟨[], some (StoredData.wellFormed []), none,
          ⟨some "p", some "9", some "0", some "10", some "0", some []⟩, none, true⟩ now).2.mediaList ∧
    (addMedia
        ⟨[], some (StoredData.wellFormed []), none,
          ⟨some "p", some "9", some "0", some "10", some "0", some []⟩, none, true⟩ now).2.storage
      = some (StoredData.wellFormed
          [⟨some "p", some "9", some "0", some "10", some "0", some []⟩]) := by
  have hact : isMediaActive now m = false := by
    unfold isMediaActive
    rcases m with ⟨p, hs, ms, he, me, wdo⟩
    simp only at hm
    subst hm
    by_cases h1 : jsTruthy hs <;> by_cases h2 : jsTruthy ms <;>
      by_cases h3 : jsTruthy he <;> by_cases h4 : jsTruthy me <;>
      simp [h1, h2, h3, h4, List.contains]
  refine ⟨hact, ?_, by decide, rfl, ?_, rfl⟩
  · intro hfind
    have := List.find?_some hfind
    rw [hact] at this
    exact absurd this (by simp)
  · exact List.mem_singleton.2 rfl

theorem emptyWeekDays_commit_never_active_witness :
    isMediaActive ⟨1, 9, 30, 0⟩ ⟨some "p", some "9", some "0", some "10", some "0", some []⟩
        = false ∧
    updateCurrentMedia [⟨some "p", some "9", some "0", some "10", some "0", some []⟩]
        ⟨1, 9, 30, 0⟩
      ≠ some ⟨some "p", some "9", some "0", some "10", some "0", some []⟩ := by
  have h := emptyWeekDays_commit_never_active ⟨1, 9, 30, 0⟩
    [⟨some "p", some "9", some "0", some "10", some "0", some []⟩]
    ⟨some "p", some "9", some "0", some "10", some "0", some []⟩ (by decide)
  exact ⟨h.1, h.2.1⟩
